import Mathlib

/-!
Shallow embedding of the snake rule engine in `src/snake_game.py`
(`SnakeGame`): grid constants, `Direction`, the mutable game state, the
spawn loops, `reset_game`, the direction-key handling, and `update`.

Modelling conventions:
* Grid cells are integer pairs; the transient `new_head` may leave the grid.
* Python wall-clock timestamps (`time.time()`) become an explicit `now : ℚ`
  argument; float arithmetic in the decay formula is modelled over ℚ, and
  Python `int(...)` (truncation toward zero) is `pyInt`.
* The rejection-sampling spawn loops (`spawn_food`, `spawn_orange`) consume
  an explicit stream of random candidate cells and return `none` when the
  stream is exhausted; `update` therefore returns `Option GameState`, with
  `none` for the non-terminating / crashing executions (empty candidate
  stream, empty snake list).
-/

abbrev Cell := ℤ × ℤ

def GRID_WIDTH : ℤ := 20

def GRID_HEIGHT : ℤ := 20

inductive Direction where
  | UP
  | DOWN
  | LEFT
  | RIGHT
deriving DecidableEq, Repr

/-- The unit delta attached to each `Direction` enum member in the source. -/
def Direction.delta : Direction → ℤ × ℤ
  | .UP => (0, -1)
  | .DOWN => (0, 1)
  | .LEFT => (-1, 0)
  | .RIGHT => (1, 0)

/-- The exact reverse of a direction (the spec's notion used to phrase the
reversal-rejection rule; the source encodes it in four `if` guards). -/
def Direction.reverse : Direction → Direction
  | .UP => .DOWN
  | .DOWN => .UP
  | .LEFT => .RIGHT
  | .RIGHT => .LEFT

def WALL_COLLISION : String := "WALL COLLISION"

def SELF_COLLISION : String := "SELF COLLISION"

/-- The mutable fields of `SnakeGame` that the rule engine reads or writes. -/
structure GameState where
  snake : List Cell
  direction : Direction
  next_direction : Direction
  food : Cell
  score : ℤ
  game_over : Bool
  game_over_message : Option String
  game_paused : Bool
  difficulty : ℤ
  selected_level : ℤ
  menu_active : Bool
  apples_eaten_since_orange : ℤ
  orange_active : Bool
  orange_pos : Option Cell
  orange_spawn_time : ℚ
  orange_dur : ℚ
deriving DecidableEq, Repr

/-- Python `int(...)` on a real value: truncation toward zero. -/
def pyInt (q : ℚ) : ℤ := if 0 ≤ q then ⌊q⌋ else ⌈q⌉

/-- `SnakeGame.spawn_food`: first candidate cell not in the snake and not on
an active orange. -/
def spawn_food (snake : List Cell) (orange_active : Bool) (orange_pos : Option Cell)
    (cands : List Cell) : Option Cell :=
  cands.find? fun c => decide (c ∉ snake) && (!orange_active || decide (orange_pos ≠ some c))

/-- `SnakeGame.spawn_orange`: first candidate cell not in the snake and not on
the food. -/
def spawn_orange (snake : List Cell) (food : Cell) (cands : List Cell) : Option Cell :=
  cands.find? fun c => decide (c ∉ snake) && decide (c ≠ food)

/-- `SnakeGame.reset_game`: fresh 3-segment snake in the middle of the grid,
direction RIGHT, fresh food, score 0, game-over flags cleared.  All other
fields (orange state, apple counter, difficulty, pause flag) are left as they
were. -/
def reset_game (s : GameState) (foodCands : List Cell) : Option GameState :=
  let start_x : ℤ := GRID_WIDTH / 2
  let start_y : ℤ := GRID_HEIGHT / 2
  let snake : List Cell := [(start_x, start_y), (start_x - 1, start_y), (start_x - 2, start_y)]
  match spawn_food snake s.orange_active s.orange_pos foodCands with
  | none => none
  | some f =>
      some { s with
        snake := snake
        direction := .RIGHT
        next_direction := .RIGHT
        food := f
        score := 0
        game_over := false
        game_over_message := none }

/-- The `R`-key handler during gameplay: `reset_game()` then unpause. -/
def restart_command (s : GameState) (foodCands : List Cell) : Option GameState :=
  (reset_game s foodCands).map fun s' => { s' with game_paused := false }

/-- The four direction-key branches of `SnakeGame.handle_input`. -/
def handle_direction_key (s : GameState) (k : Direction) : GameState :=
  match k with
  | .UP => if s.direction ≠ .DOWN then { s with next_direction := .UP } else s
  | .DOWN => if s.direction ≠ .UP then { s with next_direction := .DOWN } else s
  | .LEFT => if s.direction ≠ .RIGHT then { s with next_direction := .LEFT } else s
  | .RIGHT => if s.direction ≠ .LEFT then { s with next_direction := .RIGHT } else s

/-- The head cell the next `update` will step to (reads `snake[0]` and the
pending direction). -/
def newHead (s : GameState) : Cell :=
  let h := s.snake.headD (0, 0)
  (h.1 + s.next_direction.delta.1, h.2 + s.next_direction.delta.2)

/-- The food-collision block of `SnakeGame.update` (lines 187–199): on a food
hit, score up, respawn food, bump the apple counter and possibly spawn an
orange; otherwise pop the tail.  `grown` is the body with the new head already
prepended. -/
def food_step (s : GameState) (dir : Direction) (grown : List Cell) (new_head : Cell)
    (now : ℚ) (foodCands orangeCands : List Cell) : Option GameState :=
  if new_head = s.food then
    match spawn_food grown s.orange_active s.orange_pos foodCands with
    | none => none
    | some f =>
        if 5 ≤ s.apples_eaten_since_orange + 1 ∧ s.orange_active = false then
          match spawn_orange grown f orangeCands with
          | none => none
          | some op =>
              some { s with
                direction := dir
                snake := grown
                food := f
                score := s.score + 10 * s.difficulty
                apples_eaten_since_orange := 0
                orange_pos := some op
                orange_active := true
                orange_spawn_time := now }
        else
          some { s with
            direction := dir
            snake := grown
            food := f
            score := s.score + 10 * s.difficulty
            apples_eaten_since_orange := s.apples_eaten_since_orange + 1 }
  else
    some { s with direction := dir, snake := grown.dropLast }

/-- The orange-collision block of `SnakeGame.update` (lines 202–213): consume
an active orange under the new head, add the time-decayed reward, append two
copies of the current tail, deactivate the orange. -/
def orange_step (s2 : GameState) (new_head : Cell) (now : ℚ) : Option GameState :=
  if s2.orange_active = true ∧ s2.orange_pos = some new_head then
    match s2.snake.getLast? with
    | none => none
    | some tl =>
        let elapsed := now - s2.orange_spawn_time
        let frac := min (max (elapsed / s2.orange_dur) 0) 1
        let reward : ℤ := max 5 (pyInt (50 - frac * 45))
        some { s2 with
          score := s2.score + reward
          snake := s2.snake ++ [tl, tl]
          orange_active := false
          orange_pos := none
          orange_spawn_time := 0 }
  else some s2

/-- `SnakeGame.update`: one tick.  No-op when game over or paused; otherwise
commit the pending direction, compute the new head, check walls, check self
collision against the body before any tail removal, then run the food and
orange blocks. -/
def update (s : GameState) (now : ℚ) (foodCands orangeCands : List Cell) :
    Option GameState :=
  if s.game_over = true ∨ s.game_paused = true then some s
  else
    match s.snake with
    | [] => none
    | head0 :: _ =>
        let dir := s.next_direction
        let new_head : Cell := (head0.1 + dir.delta.1, head0.2 + dir.delta.2)
        if new_head.1 < 0 ∨ GRID_WIDTH ≤ new_head.1 ∨ new_head.2 < 0 ∨ GRID_HEIGHT ≤ new_head.2 then
          some { s with
            direction := dir
            game_over := true
            game_over_message := some WALL_COLLISION }
        else if new_head ∈ s.snake then
          some { s with
            direction := dir
            game_over := true
            game_over_message := some SELF_COLLISION }
        else
          match food_step s dir (new_head :: s.snake) new_head now foodCands orangeCands with
          | none => none
          | some s2 => orange_step s2 new_head now

/-- Run a sequence of ticks, each with its own clock sample and candidate
streams. -/
def runTicks (s : GameState) : List (ℚ × List Cell × List Cell) → Option GameState
  | [] => some s
  | (now, fc, oc) :: rest =>
      match update s now fc oc with
      | none => none
      | some s' => runTicks s' rest

/-- A cell inside the playfield `[0,W) × [0,H)`. -/
def in_bounds (c : Cell) : Prop :=
  0 ≤ c.1 ∧ c.1 < GRID_WIDTH ∧ 0 ≤ c.2 ∧ c.2 < GRID_HEIGHT

instance : DecidablePred in_bounds := fun c => by
  unfold in_bounds
  infer_instance

/-- A mid-board Playing state used as a concrete base for witnesses and
counterexamples: the freshly reset snake, facing right, difficulty 2. -/
def sBase : GameState :=
  { snake := [(10, 10), (9, 10), (8, 10)]
    direction := .RIGHT
    next_direction := .RIGHT
    food := (0, 0)
    score := 0
    game_over := false
    game_over_message := none
    game_paused := false
    difficulty := 2
    selected_level := 2
    menu_active := false
    apples_eaten_since_orange := 0
    orange_active := false
    orange_pos := none
    orange_spawn_time := 0
    orange_dur := 5 }

/-- A Playing state with an active orange directly in the snake's path
(spawned at time 0), used for the decay-related concrete runs. -/
def sOr : GameState :=
  { sBase with orange_active := true, orange_pos := some (11, 10) }

/-- `sOr` paused. -/
def sOrP : GameState := { sOr with game_paused := true }

/-- `sOrP` unpaused again (after some wall-clock time has passed). -/
def sOrR : GameState := { sOrP with game_paused := false }

/-- `sBase` after one tick to the right. -/
def sB1 : GameState := { sBase with snake := [(11, 10), (10, 10), (9, 10)] }

/-- `sBase` after two ticks to the right. -/
def sB2 : GameState := { sBase with snake := [(12, 10), (11, 10), (10, 10)] }

/-- A state whose pending move runs off the top of the grid while the stored
current direction still differs from the pending one. -/
def sEdge : GameState :=
  { sBase with snake := [(5, 0), (5, 1), (5, 2)], direction := .RIGHT, next_direction := .UP }

/-- A state whose pending move lands on the body's soon-to-vacate tail cell. -/
def sSelf : GameState :=
  { sBase with
    snake := [(5, 5), (6, 5), (6, 6), (5, 6), (4, 6)]
    direction := .DOWN
    next_direction := .DOWN }

/-- A game-over state that still carries an active orange and a nonzero apple
counter into the restart. -/
def sGO : GameState :=
  { sBase with
    game_over := true
    game_over_message := some SELF_COLLISION
    orange_active := true
    orange_pos := some (3, 3)
    apples_eaten_since_orange := 3 }

/-- A state about to eat the food directly ahead. -/
def sEat : GameState := { sBase with food := (11, 10) }

/-- `sEat` with four apples already eaten, so the next apple is the fifth. -/
def sEat4 : GameState := { sEat with apples_eaten_since_orange := 4 }

/-- `sEat` after its tick: food eaten, snake grown, food respawned at the
head of the candidate stream `[(0, 0)]`. -/
def sEatAfter : GameState :=
  { sEat with
    snake := [(11, 10), (10, 10), (9, 10), (8, 10)]
    food := (0, 0)
    score := 20
    apples_eaten_since_orange := 1 }

/-- `sEat` with an active orange elsewhere on the board and an apple counter
already past the threshold. -/
def sEatOr : GameState :=
  { sEat with
    orange_active := true
    orange_pos := some (3, 3)
    apples_eaten_since_orange := 7 }

/-- `sEatOr` after its tick: apple eaten, counter bumped (not reset), orange
untouched. -/
def sEatOrAfter : GameState :=
  { sEatOr with
    snake := [(11, 10), (10, 10), (9, 10), (8, 10)]
    food := (0, 0)
    score := 20
    apples_eaten_since_orange := 8 }

/-- Modelled from the spec: the reward formula exactly as the spec writes it,
`max(5, round(50 - clamp(elapsed/decayWindow, 0, 1) * 45))`, kept separate
from the code's truncating formula so the two can be compared. -/
def specBonusReward (elapsed decayWindow : ℚ) : ℤ :=
  max 5 (round (50 - min (max (elapsed / decayWindow) 0) 1 * 45))

/-- Unfolding `in_bounds` into the wall-check disjunction used by `update`. -/
lemma not_in_bounds_iff (c : Cell) :
    ¬ in_bounds c ↔ (c.1 < 0 ∨ GRID_WIDTH ≤ c.1 ∨ c.2 < 0 ∨ GRID_HEIGHT ≤ c.2) := by
  unfold in_bounds
  constructor
  · intro h
    by_contra hc
    push_neg at hc
    exact h ⟨hc.1, hc.2.1, hc.2.2.1, hc.2.2.2⟩
  · rintro (h | h | h | h) ⟨h1, h2, h3, h4⟩ <;> omega

/-- `spawn_food` only returns cells satisfying its rejection predicate. -/
lemma spawn_food_spec {sn : List Cell} {oa : Bool} {op : Option Cell} {cands : List Cell}
    {f : Cell} (h : spawn_food sn oa op cands = some f) :
    f ∉ sn ∧ (oa = true → op ≠ some f) := by
  have hp := List.find?_some h
  simp only [Bool.and_eq_true, Bool.or_eq_true, Bool.not_eq_true', decide_eq_true_eq] at hp
  refine ⟨hp.1, fun hoa => ?_⟩
  rcases hp.2 with h' | h'
  · rw [hoa] at h'
    cases h'
  · exact h'

/-- `spawn_orange` only returns cells satisfying its rejection predicate. -/
lemma spawn_orange_spec {sn : List Cell} {fd : Cell} {cands : List Cell} {c : Cell}
    (h : spawn_orange sn fd cands = some c) : c ∉ sn ∧ c ≠ fd := by
  have hp := List.find?_some h
  simpa using hp

/-- On nonnegative inputs Python truncation is the floor. -/
lemma pyInt_eq_floor {q : ℚ} (h : 0 ≤ q) : pyInt q = ⌊q⌋ := if_pos h

/-- In a live Playing state whose pending move leaves the grid, `update`
takes the wall branch: game over with the wall message, the direction field
committed to the pending direction, and every other field untouched. -/
lemma update_wall_case (s : GameState) (now : ℚ) (fc oc : List Cell) (hd : Cell)
    (tl : List Cell) (hgo : s.game_over = false) (hgp : s.game_paused = false)
    (hsn : s.snake = hd :: tl) (hout : ¬ in_bounds (newHead s)) :
    update s now fc oc =
      some { s with
        direction := s.next_direction
        game_over := true
        game_over_message := some WALL_COLLISION } := by
  have hnh : newHead s = (hd.1 + s.next_direction.delta.1, hd.2 + s.next_direction.delta.2) := by
    rw [newHead, hsn]
    rfl
  rw [hnh, not_in_bounds_iff] at hout
  unfold update
  rw [hsn]
  simp only [hgo, hgp]
  rw [if_neg (by simp)]
  rw [if_pos hout]

/-- In a live Playing state whose pending move stays on the grid but lands on
the current body, `update` takes the self-collision branch. -/
lemma update_self_case (s : GameState) (now : ℚ) (fc oc : List Cell) (hd : Cell)
    (tl : List Cell) (hgo : s.game_over = false) (hgp : s.game_paused = false)
    (hsn : s.snake = hd :: tl) (hin : in_bounds (newHead s))
    (hmem : newHead s ∈ s.snake) :
    update s now fc oc =
      some { s with
        direction := s.next_direction
        game_over := true
        game_over_message := some SELF_COLLISION } := by
  have hnh : newHead s = (hd.1 + s.next_direction.delta.1, hd.2 + s.next_direction.delta.2) := by
    rw [newHead, hsn]
    rfl
  have hin' := hin
  rw [hnh] at hin'
  unfold in_bounds at hin'
  dsimp only at hin'
  have hout : ¬ ((hd.1 + s.next_direction.delta.1) < 0 ∨
      GRID_WIDTH ≤ hd.1 + s.next_direction.delta.1 ∨
      (hd.2 + s.next_direction.delta.2) < 0 ∨
      GRID_HEIGHT ≤ hd.2 + s.next_direction.delta.2) := by
    rcases hin' with ⟨a, b, c, d⟩
    rintro (h | h | h | h) <;> omega
  rw [hnh, hsn] at hmem
  unfold update
  rw [hsn]
  simp only [hgo, hgp]
  rw [if_neg (by simp)]
  rw [if_neg hout, if_pos hmem]

/-- In a live Playing state whose pending move stays on the grid and misses
the body, `update` runs the food block then the orange block. -/
lemma update_move_case (s : GameState) (now : ℚ) (fc oc : List Cell) (hd : Cell)
    (tl : List Cell) (hgo : s.game_over = false) (hgp : s.game_paused = false)
    (hsn : s.snake = hd :: tl) (hin : in_bounds (newHead s))
    (hmem : newHead s ∉ s.snake) :
    update s now fc oc =
      match food_step s s.next_direction (newHead s :: s.snake) (newHead s) now fc oc with
      | none => none
      | some s2 => orange_step s2 (newHead s) now := by
  have hnh : newHead s = (hd.1 + s.next_direction.delta.1, hd.2 + s.next_direction.delta.2) := by
    rw [newHead, hsn]
    rfl
  have hin' := hin
  rw [hnh] at hin'
  unfold in_bounds at hin'
  dsimp only at hin'
  have hout : ¬ ((hd.1 + s.next_direction.delta.1) < 0 ∨
      GRID_WIDTH ≤ hd.1 + s.next_direction.delta.1 ∨
      (hd.2 + s.next_direction.delta.2) < 0 ∨
      GRID_HEIGHT ≤ hd.2 + s.next_direction.delta.2) := by
    rcases hin' with ⟨a, b, c, d⟩
    rintro (h | h | h | h) <;> omega
  rw [hnh, hsn] at hmem
  unfold update
  rw [hsn]
  simp only [hgo, hgp]
  rw [if_neg (by simp)]
  rw [if_neg hout, if_neg hmem, ← hnh]

/-- When no active orange sits under the new head the orange block is a
no-op. -/
lemma orange_step_skip (s2 : GameState) (nh : Cell) (now : ℚ)
    (h : ¬ (s2.orange_active = true ∧ s2.orange_pos = some nh)) :
    orange_step s2 nh now = some s2 := by
  unfold orange_step
  rw [if_neg h]

/-- C8: a directional command that is the exact reverse of the stored current
direction is ignored — the whole state, in particular the stored pending
direction, is unchanged, so the next advance still uses the prior pending
direction; any other directional command becomes the new pending direction. -/
theorem direction_command_reversal_rule (s : GameState) (k : Direction) :
    (k = s.direction.reverse → handle_direction_key s k = s) ∧
    (k ≠ s.direction.reverse → handle_direction_key s k = { s with next_direction := k }) := by
  constructor <;> intro h <;> cases k <;> cases hd : s.direction <;>
    simp_all [handle_direction_key, Direction.reverse]

/-- Witness for C8: with the current direction RIGHT, a LEFT command is
dropped and an UP command replaces the pending direction. -/
theorem direction_command_reversal_rule_witness :
    handle_direction_key sBase .LEFT = sBase ∧
    handle_direction_key sBase .UP = { sBase with next_direction := .UP } :=
  ⟨(direction_command_reversal_rule sBase .LEFT).1 (by decide),
   (direction_command_reversal_rule sBase .UP).2 (by decide)⟩

/-- C6: in a live Playing state whose body lies on the grid, a pending move
onto any cell of the current body — the check runs before the tail is
removed, so the tail cell about to be vacated counts — ends the game with the
self-collision message (and mutates nothing but the committed direction and
the game-over fields). -/
theorem self_collision_death (s : GameState) (now : ℚ) (fc oc : List Cell)
    (hd : Cell) (tl : List Cell)
    (hgo : s.game_over = false) (hgp : s.game_paused = false)
    (hsn : s.snake = hd :: tl)
    (hbody : ∀ c ∈ s.snake, in_bounds c)
    (hmem : newHead s ∈ s.snake) :
    update s now fc oc =
      some { s with
        direction := s.next_direction
        game_over := true
        game_over_message := some SELF_COLLISION } :=
  update_self_case s now fc oc hd tl hgo hgp hsn (hbody _ hmem) hmem

/-- Witness for C6: moving down onto the tail cell `(5, 6)` — which this very
tick would vacate — still kills the snake. -/
theorem self_collision_death_witness :
    update sSelf 0 [] [] =
      some { sSelf with
        direction := sSelf.next_direction
        game_over := true
        game_over_message := some SELF_COLLISION } :=
  self_collision_death sSelf 0 [] [] (5, 5) [(6, 5), (6, 6), (5, 6), (4, 6)]
    rfl rfl rfl (by decide) (by decide)

/-- C4 (amended): a pending move off the grid ends the game with the wall
message and leaves the snake, pending direction, food, orange state and score
untouched — but the stored current direction has already been committed to
the pending direction before the wall check, so it does change whenever the
two differed. -/
theorem wall_death_frame (s : GameState) (now : ℚ) (fc oc : List Cell)
    (hd : Cell) (tl : List Cell)
    (hgo : s.game_over = false) (hgp : s.game_paused = false)
    (hsn : s.snake = hd :: tl)
    (hout : ¬ in_bounds (newHead s)) :
    update s now fc oc =
      some { s with
        direction := s.next_direction
        game_over := true
        game_over_message := some WALL_COLLISION } :=
  update_wall_case s now fc oc hd tl hgo hgp hsn hout

/-- Witness for C4: a snake at the top edge with a pending UP move dies on
the wall. -/
theorem wall_death_frame_witness :
    update sEdge 0 [] [] =
      some { sEdge with
        direction := sEdge.next_direction
        game_over := true
        game_over_message := some WALL_COLLISION } :=
  wall_death_frame sEdge 0 [] [] (5, 0) [(5, 1), (5, 2)] rfl rfl rfl (by decide)

/-- Counterexample for C4 as stated: on the wall-death tick of `sEdge` the
stored current direction is mutated (RIGHT becomes UP), even though the claim
says no part of the state other than the game-over outcome changes. -/
theorem wall_death_changes_direction :
    (update sEdge 0 [] []).map (fun t => decide (t.direction = sEdge.direction)) = some false ∧
    (update sEdge 0 [] []).map (fun t => t.game_over_message) = some (some WALL_COLLISION) := by
  decide

/-- C5 (amended): while the game is paused a tick is processed as a complete
no-op — the state, including the snake, food, score and the whole orange
state, is returned unchanged. (The elapsed time feeding bonus decay is wall
clock, so it keeps advancing across a pause; see the counterexample.) -/
theorem paused_tick_noop (s : GameState) (now : ℚ) (fc oc : List Cell)
    (hp : s.game_paused = true) : update s now fc oc = some s := by
  unfold update
  rw [if_pos (Or.inr hp)]

/-- Witness for C5: a paused tick at time 2 leaves the paused orange state
exactly as it was. -/
theorem paused_tick_noop_witness : update sOrP 2 [] [] = some sOrP :=
  paused_tick_noop sOrP 2 [] [] rfl

/-- Counterexample for C5 as stated: consuming the orange at wall-clock time
2 pays 32, and pausing over times 2 and 4 leaves the state (hence the spawn
timestamp) untouched, yet consuming right after unpausing at time 5 pays only
5 — the decay clock ran on through the pause instead of freezing. -/
theorem pause_does_not_freeze_bonus_decay :
    (update sOr 2 [] []).map (fun t => t.score) = some 32 ∧
    update sOrP 2 [] [] = some sOrP ∧
    update sOrP 4 [] [] = some sOrP ∧
    (update sOrR 5 [] []).map (fun t => t.score) = some 5 ∧
    (5 : ℤ) ≠ 32 := by
  refine ⟨?_, by decide, by decide, ?_, by decide⟩
  · norm_num [update, food_step, orange_step, sOr, sBase, pyInt, Direction.delta,
      GRID_WIDTH, GRID_HEIGHT, spawn_food]
  · norm_num [update, food_step, orange_step, sOrR, sOrP, sOr, sBase, pyInt,
      Direction.delta, GRID_WIDTH, GRID_HEIGHT, spawn_food]

/-- C2 (amended): `reset_game` installs a fresh 3-segment snake in the middle
of the grid facing RIGHT, a freshly spawned food, score 0 and cleared
game-over fields, and the restart command applies it while keeping the
currently selected difficulty and unpausing — but the orange (bonus) state
and the apples-since-orange counter are NOT reset: they carry over from the
previous session. -/
theorem reset_game_fresh_session (s : GameState) (fc : List Cell) (f : Cell)
    (hf : spawn_food [((10 : ℤ), (10 : ℤ)), (9, 10), (8, 10)] s.orange_active s.orange_pos fc
        = some f) :
    reset_game s fc =
      some { s with
        snake := [(10, 10), (9, 10), (8, 10)]
        direction := .RIGHT
        next_direction := .RIGHT
        food := f
        score := 0
        game_over := false
        game_over_message := none } ∧
    restart_command s fc =
      some { s with
        snake := [(10, 10), (9, 10), (8, 10)]
        direction := .RIGHT
        next_direction := .RIGHT
        food := f
        score := 0
        game_over := false
        game_over_message := none
        game_paused := false } := by
  have h1 : reset_game s fc =
      some { s with
        snake := [(10, 10), (9, 10), (8, 10)]
        direction := .RIGHT
        next_direction := .RIGHT
        food := f
        score := 0
        game_over := false
        game_over_message := none } := by
    simp only [reset_game]
    norm_num [GRID_WIDTH, GRID_HEIGHT]
    rw [hf]
  refine ⟨h1, ?_⟩
  unfold restart_command
  rw [h1]
  rfl

/-- Witness for C2: restarting from a game-over state with an active orange
and apple counter 3 produces the fresh snake, fresh food and zero score of a
new session. -/
theorem reset_game_fresh_session_witness :
    reset_game sGO [(0, 0)] =
      some { sGO with
        snake := [(10, 10), (9, 10), (8, 10)]
        direction := .RIGHT
        next_direction := .RIGHT
        food := (0, 0)
        score := 0
        game_over := false
        game_over_message := none } ∧
    restart_command sGO [(0, 0)] =
      some { sGO with
        snake := [(10, 10), (9, 10), (8, 10)]
        direction := .RIGHT
        next_direction := .RIGHT
        food := (0, 0)
        score := 0
        game_over := false
        game_over_message := none
        game_paused := false } :=
  reset_game_fresh_session sGO [(0, 0)] (0, 0) (by decide)

/-- Counterexample for C2 as stated: after `reset_game` from `sGO` the orange
is still active and the apples-since-orange counter is still 3, not the
cleared bonus and zero counter the claim promises. -/
theorem reset_game_keeps_orange_state :
    (reset_game sGO [(0, 0)]).map
        (fun t => (t.orange_active, t.apples_eaten_since_orange)) = some (true, 3) ∧
    ((true, (3 : ℤ)) ≠ (false, 0)) := by
  decide

/-- The food block never lowers the score and never touches the difficulty. -/
lemma food_step_score_mono (s : GameState) (dir : Direction) (grown : List Cell)
    (nh : Cell) (now : ℚ) (fc oc : List Cell) (s2 : GameState)
    (hdiff : 0 ≤ s.difficulty)
    (h : food_step s dir grown nh now fc oc = some s2) :
    s.score ≤ s2.score ∧ s2.difficulty = s.difficulty := by
  unfold food_step at h
  split at h
  · split at h
    · exact Option.noConfusion h
    · split at h
      · split at h
        · exact Option.noConfusion h
        · cases h
          refine ⟨?_, rfl⟩
          have : 0 ≤ 10 * s.difficulty := by positivity
          dsimp only
          linarith
      · cases h
        refine ⟨?_, rfl⟩
        have : 0 ≤ 10 * s.difficulty := by positivity
        dsimp only
        linarith
  · cases h
    exact ⟨le_refl _, rfl⟩

/-- The orange block never lowers the score (the decayed reward is at least
5) and never touches the difficulty. -/
lemma orange_step_score_mono (s2 : GameState) (nh : Cell) (now : ℚ) (s3 : GameState)
    (h : orange_step s2 nh now = some s3) :
    s2.score ≤ s3.score ∧ s3.difficulty = s2.difficulty := by
  unfold orange_step at h
  split at h
  · split at h
    · exact Option.noConfusion h
    · cases h
      refine ⟨?_, rfl⟩
      have h5 : (5 : ℤ) ≤ max 5 (pyInt (50 - min (max ((now - s2.orange_spawn_time) / s2.orange_dur) 0) 1 * 45)) :=
        le_max_left _ _
      dsimp only
      linarith
  · cases h
    exact ⟨le_refl _, rfl⟩

/-- One tick never lowers the score and never touches the difficulty. -/
lemma update_score_mono (s : GameState) (now : ℚ) (fc oc : List Cell) (s' : GameState)
    (hdiff : 0 ≤ s.difficulty) (h : update s now fc oc = some s') :
    s.score ≤ s'.score ∧ s'.difficulty = s.difficulty := by
  unfold update at h
  split at h
  · cases h
    exact ⟨le_refl _, rfl⟩
  · split at h
    · exact Option.noConfusion h
    · dsimp only at h
      split at h
      · cases h
        exact ⟨le_refl _, rfl⟩
      · split at h
        · cases h
          exact ⟨le_refl _, rfl⟩
        · cases hf : food_step s s.next_direction (_ :: s.snake) _ now fc oc with
          | none => rw [hf] at h; exact Option.noConfusion h
          | some s2 =>
              rw [hf] at h
              have h1 := food_step_score_mono s s.next_direction _ _ now fc oc s2 hdiff hf
              have h2 := orange_step_score_mono s2 _ now s' h
              exact ⟨le_trans h1.1 h2.1, by rw [h2.2, h1.2]⟩

/-- C9: across any sequence of ticks in one session (difficulty nonnegative,
score initially nonnegative, as `reset_game` guarantees with score 0), the
score stays a nonnegative integer and never decreases. -/
theorem score_nonneg_monotone (s : GameState) (ticks : List (ℚ × List Cell × List Cell))
    (s' : GameState) (hdiff : 0 ≤ s.difficulty) (hscore : 0 ≤ s.score)
    (h : runTicks s ticks = some s') :
    0 ≤ s'.score ∧ s.score ≤ s'.score := by
  induction ticks generalizing s with
  | nil =>
      unfold runTicks at h
      cases h
      exact ⟨hscore, le_refl _⟩
  | cons tk rest ih =>
      obtain ⟨now, fc, oc⟩ := tk
      unfold runTicks at h
      cases hu : update s now fc oc with
      | none => rw [hu] at h; exact Option.noConfusion h
      | some s1 =>
          rw [hu] at h
          have hm := update_score_mono s now fc oc s1 hdiff hu
          have hrest := ih s1 (hm.2 ▸ hdiff) (le_trans hscore hm.1) h
          exact ⟨hrest.1, le_trans hm.1 hrest.2⟩

/-- Witness for C9: two plain ticks to the right keep the score nonnegative
and non-decreasing. -/
theorem score_nonneg_monotone_witness : 0 ≤ sB2.score ∧ sBase.score ≤ sB2.score :=
  score_nonneg_monotone sBase [(0, [], []), (0, [], [])] sB2 (by decide) (by decide) (by decide)

/-- C1 (amended): consuming an active orange (decay window 5 s) on a tick at
wall-clock `now` adds `max 5 ⌊50 − clamp((now − spawnTime)/5, 0, 1) × 45⌋` to
the score — the source truncates with `int(...)`, it does not round — and
deactivates the orange; in particular the reward is exactly 50 at elapsed 0,
exactly 5 for every elapsed ≥ 5, and 27 (not 28) at elapsed 2.5. -/
theorem bonus_reward_decay_formula (s : GameState) (now : ℚ) (fc oc : List Cell)
    (hd : Cell) (tl : List Cell)
    (hgo : s.game_over = false) (hgp : s.game_paused = false)
    (hsn : s.snake = hd :: tl)
    (hin : in_bounds (newHead s)) (hmem : newHead s ∉ s.snake)
    (hnf : newHead s ≠ s.food)
    (hoa : s.orange_active = true) (hop : s.orange_pos = some (newHead s))
    (hdur : s.orange_dur = 5) :
    (update s now fc oc).map (fun t => t.score)
        = some (s.score + max 5 ⌊50 - min (max ((now - s.orange_spawn_time) / 5) 0) 1 * 45⌋) ∧
    (update s now fc oc).map (fun t => t.orange_active) = some false ∧
    (now - s.orange_spawn_time = 0 →
      (update s now fc oc).map (fun t => t.score) = some (s.score + 50)) ∧
    (5 ≤ now - s.orange_spawn_time →
      (update s now fc oc).map (fun t => t.score) = some (s.score + 5)) ∧
    (now - s.orange_spawn_time = 5 / 2 →
      (update s now fc oc).map (fun t => t.score) = some (s.score + 27)) := by
  have hfrac0 : (0 : ℚ) ≤ min (max ((now - s.orange_spawn_time) / 5) 0) 1 :=
    le_min (le_max_right _ _) (by norm_num)
  have hfrac1 : min (max ((now - s.orange_spawn_time) / 5) 0) 1 ≤ 1 := min_le_right _ _
  have harg : (0 : ℚ) ≤ 50 - min (max ((now - s.orange_spawn_time) / 5) 0) 1 * 45 := by
    nlinarith
  have hne : ((newHead s :: s.snake).dropLast) ≠ [] := by
    rw [hsn]
    intro hcon
    have hlen : ((newHead s :: hd :: tl).dropLast).length = 0 := by rw [hcon]; rfl
    rw [List.length_dropLast] at hlen
    simp at hlen
  obtain ⟨t0, ht0⟩ : ∃ t0, ((newHead s :: s.snake).dropLast).getLast? = some t0 := by
    cases hg : ((newHead s :: s.snake).dropLast).getLast? with
    | none => exact absurd (List.getLast?_eq_none_iff.mp hg) hne
    | some x => exact ⟨x, rfl⟩
  have key : (update s now fc oc).map (fun t => t.score)
        = some (s.score + max 5 ⌊50 - min (max ((now - s.orange_spawn_time) / 5) 0) 1 * 45⌋) ∧
      (update s now fc oc).map (fun t => t.orange_active) = some false := by
    rw [update_move_case s now fc oc hd tl hgo hgp hsn hin hmem]
    unfold food_step
    rw [if_neg hnf]
    dsimp only
    unfold orange_step
    dsimp only
    rw [if_pos (show s.orange_active = true ∧ s.orange_pos = some (newHead s) from ⟨hoa, hop⟩)]
    rw [ht0]
    dsimp only [Option.map]
    rw [hdur, pyInt_eq_floor harg]
    exact ⟨rfl, rfl⟩
  refine ⟨key.1, key.2, ?_, ?_, ?_⟩
  · intro hE
    rw [key.1, hE]
    norm_num [max_def, min_def]
  · intro hE
    have h1 : (1 : ℚ) ≤ (now - s.orange_spawn_time) / 5 := by
      rw [le_div_iff₀ (by norm_num : (0 : ℚ) < 5)]
      linarith
    have hmax : max ((now - s.orange_spawn_time) / 5) 0 = (now - s.orange_spawn_time) / 5 :=
      max_eq_left (by linarith)
    have hmin : min ((now - s.orange_spawn_time) / 5) 1 = 1 := min_eq_right (by linarith)
    rw [key.1, hmax, hmin]
    norm_num [max_def]
  · intro hE
    rw [key.1, hE]
    norm_num [max_def, min_def]

/-- Witness for C1: the snake of `sOr` consumes its orange (spawned at time
0) at wall-clock time 2. -/
theorem bonus_reward_decay_formula_witness :
    (update sOr 2 [] []).map (fun t => t.score)
        = some (sOr.score + max 5 ⌊50 - min (max ((2 - sOr.orange_spawn_time) / 5) 0) 1 * 45⌋) ∧
    (update sOr 2 [] []).map (fun t => t.orange_active) = some false ∧
    ((2 : ℚ) - sOr.orange_spawn_time = 0 →
      (update sOr 2 [] []).map (fun t => t.score) = some (sOr.score + 50)) ∧
    (5 ≤ (2 : ℚ) - sOr.orange_spawn_time →
      (update sOr 2 [] []).map (fun t => t.score) = some (sOr.score + 5)) ∧
    ((2 : ℚ) - sOr.orange_spawn_time = 5 / 2 →
      (update sOr 2 [] []).map (fun t => t.score) = some (sOr.score + 27)) :=
  bonus_reward_decay_formula sOr 2 [] [] (10, 10) [(9, 10), (8, 10)]
    rfl rfl rfl (by decide) (by decide) (by decide) rfl rfl rfl

/-- Counterexample for C1 as stated: consumed at elapsed 2.5 s the code pays
27 (truncation of 27.5), while the spec formula `max(5, round(50 − 0.5×45))`
prescribes 28. -/
theorem bonus_reward_truncates_not_rounds :
    (update sOr (5 / 2) [] []).map (fun t => t.score) = some 27 ∧
    specBonusReward (5 / 2) 5 = 28 ∧
    ((27 : ℤ) ≠ 28) := by
  refine ⟨?_, ?_, by decide⟩
  · norm_num [update, food_step, orange_step, sOr, sBase, pyInt, Direction.delta,
      GRID_WIDTH, GRID_HEIGHT, spawn_food]
  · norm_num [specBonusReward, max_def, min_def, round_eq]

/-- C3 (amended): pairwise distinctness of the body cells is preserved by
every tick on which no orange is consumed — wall and self deaths leave the
body alone, a plain move prepends a fresh head and drops the tail, a food
tick prepends a fresh head — but a tick that consumes an orange appends two
duplicates of the tail, so the body is NOT pairwise distinct on the ticks
that follow a bonus consumption (see the counterexample). -/
theorem snake_nodup_preserved_without_bonus (s : GameState) (now : ℚ) (fc oc : List Cell)
    (s' : GameState) (hnd : s.snake.Nodup)
    (hno : s.orange_active = true → s.orange_pos ≠ some (newHead s))
    (h : update s now fc oc = some s') : s'.snake.Nodup := by
  by_cases hstop : s.game_over = true ∨ s.game_paused = true
  · unfold update at h
    rw [if_pos hstop] at h
    cases h
    exact hnd
  · simp only [not_or, Bool.not_eq_true] at hstop
    obtain ⟨hgo, hgp⟩ := hstop
    cases hsn : s.snake with
    | nil =>
        unfold update at h
        rw [if_neg (by simp [hgo, hgp]), hsn] at h
        exact Option.noConfusion h
    | cons hd tl =>
        by_cases hin : in_bounds (newHead s)
        · by_cases hmem : newHead s ∈ s.snake
          · rw [update_self_case s now fc oc hd tl hgo hgp hsn hin hmem] at h
            cases h
            exact hnd
          · rw [update_move_case s now fc oc hd tl hgo hgp hsn hin hmem] at h
            have hgrow : (newHead s :: s.snake).Nodup := List.nodup_cons.mpr ⟨hmem, hnd⟩
            cases hf : food_step s s.next_direction (newHead s :: s.snake) (newHead s) now fc oc with
            | none => rw [hf] at h; exact Option.noConfusion h
            | some s2 =>
                rw [hf] at h
                dsimp only at h
                unfold food_step at hf
                by_cases hfood : newHead s = s.food
                · rw [if_pos hfood] at hf
                  cases hsf : spawn_food (newHead s :: s.snake) s.orange_active s.orange_pos fc with
                  | none => rw [hsf] at hf; exact Option.noConfusion hf
                  | some f =>
                      rw [hsf] at hf
                      dsimp only at hf
                      by_cases htrig : 5 ≤ s.apples_eaten_since_orange + 1 ∧ s.orange_active = false
                      · rw [if_pos htrig] at hf
                        cases hso : spawn_orange (newHead s :: s.snake) f oc with
                        | none => rw [hso] at hf; exact Option.noConfusion hf
                        | some op =>
                            rw [hso] at hf
                            cases hf
                            rw [orange_step_skip _ _ _ (by
                              rintro ⟨-, hpos⟩
                              have hop : op = newHead s := Option.some_inj.mp hpos
                              exact (spawn_orange_spec hso).1
                                (hop ▸ List.mem_cons_self _ _))] at h
                            cases h
                            exact hgrow
                      · rw [if_neg htrig] at hf
                        cases hf
                        rw [orange_step_skip _ _ _ (by
                          rintro ⟨hact, hpos⟩
                          exact hno hact hpos)] at h
                        cases h
                        exact hgrow
                · rw [if_neg hfood] at hf
                  cases hf
                  rw [orange_step_skip _ _ _ (by
                    rintro ⟨hact, hpos⟩
                    exact hno hact hpos)] at h
                  cases h
                  exact List.Nodup.sublist (List.dropLast_sublist _) hgrow
        · rw [update_wall_case s now fc oc hd tl hgo hgp hsn hin] at h
          cases h
          exact hnd

/-- Witness for C3: a plain tick from the fresh base state keeps the body
cells pairwise distinct. -/
theorem snake_nodup_preserved_without_bonus_witness : sB1.snake.Nodup :=
  snake_nodup_preserved_without_bonus sBase 0 [] [] sB1 (by decide) (by decide) (by decide)

/-- Counterexample for C3 as stated: the tick on which `sOr` consumes its
orange appends two copies of the tail, so the body immediately afterwards —
i.e. before the collision checks of the following ticks — is not pairwise
distinct. -/
theorem bonus_consumption_duplicates_tail :
    (update sOr 1 [] []).map (fun t => decide t.snake.Nodup) = some false := by
  norm_num [update, food_step, orange_step, sOr, sBase, pyInt, Direction.delta,
    GRID_WIDTH, GRID_HEIGHT, spawn_food]

/-- Full characterization of a food-eating tick (with no orange under the
head): body grows by the new head, food respawns from the candidate stream,
score rises by `10 × difficulty`, and the apple counter either triggers an
orange spawn and resets or just increments. -/
lemma update_eat_characterization (s : GameState) (now : ℚ) (fc oc : List Cell)
    (s' : GameState) (hd : Cell) (tl : List Cell)
    (hgo : s.game_over = false) (hgp : s.game_paused = false) (hsn : s.snake = hd :: tl)
    (hin : in_bounds (newHead s)) (hmem : newHead s ∉ s.snake)
    (hfood : newHead s = s.food)
    (hnoc : s.orange_active = true → s.orange_pos ≠ some s.food)
    (h : update s now fc oc = some s') :
    ∃ f, spawn_food (newHead s :: s.snake) s.orange_active s.orange_pos fc = some f ∧
      s'.snake = newHead s :: s.snake ∧
      s'.food = f ∧
      s'.score = s.score + 10 * s.difficulty ∧
      ((5 ≤ s.apples_eaten_since_orange + 1 ∧ s.orange_active = false) →
        ∃ op, spawn_orange (newHead s :: s.snake) f oc = some op ∧
          s'.orange_active = true ∧ s'.orange_pos = some op ∧
          s'.orange_spawn_time = now ∧ s'.apples_eaten_since_orange = 0) ∧
      (¬(5 ≤ s.apples_eaten_since_orange + 1 ∧ s.orange_active = false) →
        s'.apples_eaten_since_orange = s.apples_eaten_since_orange + 1 ∧
        s'.orange_active = s.orange_active ∧ s'.orange_pos = s.orange_pos ∧
        s'.orange_spawn_time = s.orange_spawn_time) := by
  rw [update_move_case s now fc oc hd tl hgo hgp hsn hin hmem] at h
  cases hf : food_step s s.next_direction (newHead s :: s.snake) (newHead s) now fc oc with
  | none => rw [hf] at h; exact Option.noConfusion h
  | some s2 =>
      rw [hf] at h
      dsimp only at h
      unfold food_step at hf
      rw [if_pos hfood] at hf
      cases hsf : spawn_food (newHead s :: s.snake) s.orange_active s.orange_pos fc with
      | none => rw [hsf] at hf; exact Option.noConfusion hf
      | some f =>
          rw [hsf] at hf
          dsimp only at hf
          refine ⟨f, rfl, ?_⟩
          by_cases htrig : 5 ≤ s.apples_eaten_since_orange + 1 ∧ s.orange_active = false
          · rw [if_pos htrig] at hf
            cases hso : spawn_orange (newHead s :: s.snake) f oc with
            | none => rw [hso] at hf; exact Option.noConfusion hf
            | some op =>
                rw [hso] at hf
                cases hf
                rw [orange_step_skip _ _ _ (by
                  rintro ⟨-, hpos⟩
                  have hop : op = newHead s := Option.some_inj.mp hpos
                  exact (spawn_orange_spec hso).1 (hop ▸ List.mem_cons_self _ _))] at h
                cases h
                exact ⟨rfl, rfl, rfl, fun _ => ⟨op, rfl, rfl, rfl, rfl, rfl⟩,
                  fun hcon => absurd htrig hcon⟩
          · rw [if_neg htrig] at hf
            cases hf
            rw [orange_step_skip _ _ _ (by
              rintro ⟨hact, hpos⟩
              exact hnoc hact (hfood ▸ hpos))] at h
            cases h
            exact ⟨rfl, rfl, rfl, fun hcon => absurd hcon htrig,
              fun _ => ⟨rfl, rfl, rfl, rfl⟩⟩

/-- The orange block never touches the apples-since-orange counter. -/
lemma orange_step_counter (s2 : GameState) (nh : Cell) (now : ℚ) (s3 : GameState)
    (h : orange_step s2 nh now = some s3) :
    s3.apples_eaten_since_orange = s2.apples_eaten_since_orange := by
  unfold orange_step at h
  split at h
  · split at h
    · exact Option.noConfusion h
    · cases h
      rfl
  · cases h
    rfl

/-- C7 (amended): on every food-eating tick the score rises by exactly
`10 × difficulty`, the body grows by exactly one cell, and the food respawns
on a cell outside the new body and away from any active orange; the apple
counter increments by one UNLESS that increment reaches 5 with no active
orange, in which case an orange spawns and the counter is reset to 0 instead. -/
theorem ate_food_effects (s : GameState) (now : ℚ) (fc oc : List Cell) (s' : GameState)
    (hd : Cell) (tl : List Cell)
    (hgo : s.game_over = false) (hgp : s.game_paused = false) (hsn : s.snake = hd :: tl)
    (hin : in_bounds (newHead s)) (hmem : newHead s ∉ s.snake)
    (hfood : newHead s = s.food)
    (hnoc : s.orange_active = true → s.orange_pos ≠ some s.food)
    (h : update s now fc oc = some s') :
    s'.score = s.score + 10 * s.difficulty ∧
    s'.snake.length = s.snake.length + 1 ∧
    s'.food ∉ s'.snake ∧
    (s'.orange_active = true → s'.orange_pos ≠ some s'.food) ∧
    s'.apples_eaten_since_orange =
      (if 5 ≤ s.apples_eaten_since_orange + 1 ∧ s.orange_active = false then 0
       else s.apples_eaten_since_orange + 1) := by
  obtain ⟨f, hsf, hsnk, hfd, hsc, htr, hntr⟩ :=
    update_eat_characterization s now fc oc s' hd tl hgo hgp hsn hin hmem hfood hnoc h
  refine ⟨hsc, ?_, ?_, ?_, ?_⟩
  · rw [hsnk]
    rfl
  · rw [hfd, hsnk]
    exact (spawn_food_spec hsf).1
  · by_cases htrig : 5 ≤ s.apples_eaten_since_orange + 1 ∧ s.orange_active = false
    · obtain ⟨op, hso, _, hpos, _, _⟩ := htr htrig
      intro _ hcon
      rw [hpos, hfd] at hcon
      exact (spawn_orange_spec hso).2 (Option.some_inj.mp hcon)
    · obtain ⟨_, hact, hpos, _⟩ := hntr htrig
      intro hact' hcon
      rw [hact] at hact'
      rw [hpos, hfd] at hcon
      exact (spawn_food_spec hsf).2 hact' hcon
  · by_cases htrig : 5 ≤ s.apples_eaten_since_orange + 1 ∧ s.orange_active = false
    · obtain ⟨op, -, -, -, -, hcnt⟩ := htr htrig
      rw [if_pos htrig]
      exact hcnt
    · rw [if_neg htrig]
      exact (hntr htrig).1

/-- Witness for C7: eating the apple directly ahead at difficulty 2 pays 20,
grows the snake to 4 and bumps the counter to 1. -/
theorem ate_food_effects_witness :
    sEatAfter.score = sEat.score + 10 * sEat.difficulty ∧
    sEatAfter.snake.length = sEat.snake.length + 1 ∧
    sEatAfter.food ∉ sEatAfter.snake ∧
    (sEatAfter.orange_active = true → sEatAfter.orange_pos ≠ some sEatAfter.food) ∧
    sEatAfter.apples_eaten_since_orange =
      (if 5 ≤ sEat.apples_eaten_since_orange + 1 ∧ sEat.orange_active = false then 0
       else sEat.apples_eaten_since_orange + 1) :=
  ate_food_effects sEat 0 [(0, 0)] [] sEatAfter (10, 10) [(9, 10), (8, 10)]
    rfl rfl rfl (by decide) (by decide) (by decide) (by decide) (by decide)

/-- Counterexample for C7 as stated: eating the fifth apple (counter 4, no
active orange) spawns the orange and RESETS the counter to 0 — it is not
incremented to 5 as the claim's "incremented by 1" requires. -/
theorem ate_food_counter_reset_on_trigger :
    (update sEat4 0 [(0, 0)] [(1, 1)]).map (fun t => t.apples_eaten_since_orange) = some 0 ∧
    ((0 : ℤ) ≠ 4 + 1) := by
  decide

/-- C10: the apple counter is not reset while an orange is active — an
AteFood with an active orange just increments it (even past 5) and spawns
nothing — while an AteFood with no active orange whose increment reaches 5
spawns an orange, stamps its spawn time, and resets the counter to 0; ticks
that eat nothing leave the counter untouched (consuming an orange included),
so only an orange spawn resets it. -/
theorem orange_trigger_policy (s : GameState) (now : ℚ) (fc oc : List Cell)
    (s' : GameState) (hd : Cell) (tl : List Cell)
    (hgo : s.game_over = false) (hgp : s.game_paused = false) (hsn : s.snake = hd :: tl)
    (hin : in_bounds (newHead s)) (hmem : newHead s ∉ s.snake)
    (h : update s now fc oc = some s') :
    (newHead s = s.food → s.orange_active = true → s.orange_pos ≠ some s.food →
      s'.apples_eaten_since_orange = s.apples_eaten_since_orange + 1 ∧
      s'.orange_active = true ∧ s'.orange_pos = s.orange_pos ∧
      s'.orange_spawn_time = s.orange_spawn_time) ∧
    (newHead s = s.food → s.orange_active = false →
      5 ≤ s.apples_eaten_since_orange + 1 →
      s'.orange_active = true ∧ s'.apples_eaten_since_orange = 0 ∧
      s'.orange_spawn_time = now) ∧
    (newHead s ≠ s.food → s'.apples_eaten_since_orange = s.apples_eaten_since_orange) := by
  refine ⟨?_, ?_, ?_⟩
  · intro hfood hact hnpos
    obtain ⟨f, hsf, hsnk, hfd, hsc, htr, hntr⟩ :=
      update_eat_characterization s now fc oc s' hd tl hgo hgp hsn hin hmem hfood
        (fun _ => hnpos) h
    have hcon : ¬ (5 ≤ s.apples_eaten_since_orange + 1 ∧ s.orange_active = false) := by
      rintro ⟨-, hfalse⟩
      rw [hact] at hfalse
      exact Bool.noConfusion hfalse
    obtain ⟨hcnt, hact', hpos', htime'⟩ := hntr hcon
    exact ⟨hcnt, hact ▸ hact', hpos', htime'⟩
  · intro hfood hact hfive
    obtain ⟨f, hsf, hsnk, hfd, hsc, htr, hntr⟩ :=
      update_eat_characterization s now fc oc s' hd tl hgo hgp hsn hin hmem hfood
        (fun hcon => Bool.noConfusion (hact ▸ hcon)) h
    obtain ⟨op, hso, hact', hpos', htime', hcnt'⟩ := htr ⟨hfive, hact⟩
    exact ⟨hact', hcnt', htime'⟩
  · intro hfood
    rw [update_move_case s now fc oc hd tl hgo hgp hsn hin hmem] at h
    cases hf : food_step s s.next_direction (newHead s :: s.snake) (newHead s) now fc oc with
    | none => rw [hf] at h; exact Option.noConfusion h
    | some s2 =>
        rw [hf] at h
        dsimp only at h
        unfold food_step at hf
        rw [if_neg hfood] at hf
        cases hf
        have := orange_step_counter _ _ _ _ h
        exact this

/-- Witness for C10: eating an apple with the counter already at 7 and an
orange active elsewhere just bumps the counter to 8 and leaves the orange
alone. -/
theorem orange_trigger_policy_witness :
    (newHead sEatOr = sEatOr.food → sEatOr.orange_active = true →
      sEatOr.orange_pos ≠ some sEatOr.food →
      sEatOrAfter.apples_eaten_since_orange = sEatOr.apples_eaten_since_orange + 1 ∧
      sEatOrAfter.orange_active = true ∧ sEatOrAfter.orange_pos = sEatOr.orange_pos ∧
      sEatOrAfter.orange_spawn_time = sEatOr.orange_spawn_time) ∧
    (newHead sEatOr = sEatOr.food → sEatOr.orange_active = false →
      5 ≤ sEatOr.apples_eaten_since_orange + 1 →
      sEatOrAfter.orange_active = true ∧ sEatOrAfter.apples_eaten_since_orange = 0 ∧
      sEatOrAfter.orange_spawn_time = 0) ∧
    (newHead sEatOr ≠ sEatOr.food →
      sEatOrAfter.apples_eaten_since_orange = sEatOr.apples_eaten_since_orange) :=
  orange_trigger_policy sEatOr 0 [(0, 0)] [] sEatOrAfter (10, 10) [(9, 10), (8, 10)]
    rfl rfl rfl (by decide) (by decide) (by decide)
